import Mathlib

/-!
Verification of the inventory persistence/service core of the
`Yoshi-the-developer/Exame_Pyhon` repository (Python, SQLite-backed).

The embedding below is a shallow model of the three source files
`src/inventory/repository.py`, `src/inventory/services.py` and
`src/inventory/cli.py`.  The SQLite database file is modelled as an explicit
`Store` value threaded through every operation; SQLite `REAL` columns are
modelled by exact rationals (`Rat`) — no claim below depends on binary
floating-point rounding; `TEXT` columns by `String`; `INTEGER` columns by
`Int` (ids, which SQLite assigns positively, by `Nat`).  Fallible operations
return `Except Err` results paired with the post-state of the store.
-/

/-- Domain entity from `models.py` (that file is not part of the provided
sources).  Modelled from the spec: "immutable value records representing a
stocked item ... no behavior beyond construction and derived-value helpers";
the field list and bounds are those of spec §3.  `id` is absent (`none`)
before insertion.  Construction performs no validation (spec §2: entities
have "no behavior beyond construction"). -/
structure Product where
  id : Option Nat
  sku : String
  name : String
  category : String
  unit_price_ht : Rat
  vat_rate : Rat
  quantity : Int
  created_at : String
  deriving DecidableEq, Repr

/-- A row of the `products` table, column for column as declared by
`SCHEMA_SQL` in repository.py (id, sku, name, category, unit_price_ht,
vat_rate, quantity, created_at). -/
structure Row where
  id : Nat
  sku : String
  name : String
  category : String
  unit_price_ht : Rat
  vat_rate : Rat
  quantity : Int
  created_at : String
  deriving DecidableEq, Repr

/-- A row of the `sales` table, column for column as declared by
`SCHEMA_SQL` in repository.py. -/
structure SaleRow where
  id : Nat
  product_id : Nat
  sku : String
  quantity : Int
  unit_price_ht : Rat
  vat_rate : Rat
  total_ht : Rat
  total_vat : Rat
  total_ttc : Rat
  sold_at : String
  deriving DecidableEq, Repr

/-- The two tables plus the AUTOINCREMENT sequences (`sqlite_sequence`)
that exist once `SCHEMA_SQL` has been executed. -/
structure DBTables where
  products : List Row
  sales : List SaleRow
  productSeq : Nat
  saleSeq : Nat
  deriving DecidableEq, Repr

/-- The SQLite database file.  `tables = none` models a fresh/empty database
file in which `SCHEMA_SQL` has not run yet (statements against the tables
fail with "no such table"). -/
structure Store where
  tables : Option DBTables
  deriving DecidableEq, Repr

/-- Error taxonomy observed at the service boundary (exceptions.py is not in
the provided sources; the constructors follow spec §7 plus the two raw Python
failure modes the sources can actually produce).
`validation` carries the offending field name (spec §7: "bad user/caller
input, detected before any store access").
`database` is the domain `DatabaseError` that repository.py raises for every
`sqlite3` failure (constraint violation, missing table, ...).
`inventory` is the domain not-found error `InventoryError`.
`nameError` models a raw Python `NameError` escaping from a `raise` statement
that references an identifier the module never imported or defined. -/
inductive Err where
  | validation (field : String)
  | database
  | inventory
  | nameError (unbound : String)
  deriving DecidableEq, Repr

/-- Modelled from the spec: `now_iso` lives in models.py, which is not part
of the provided sources; spec §3 says only that `created_at` is an
"ISO-8601 timestamp, set at creation".  The wall clock is an external input
on which no claim depends, so it is modelled as a fixed timestamp string. -/
def now_iso : String := "1970-01-01T00:00:00"

/-- The rows currently stored in the `products` table (empty when the schema
has not been created yet, i.e. the table does not exist). -/
def productsOf (s : Store) : List Row :=
  match s.tables with
  | none => []
  | some t => t.products

/-- How `SQLiteRepository.list_products` rebuilds a `Product` from a row
(repository.py lines 136-145): every column copied, `id` becomes present. -/
def rowToProduct (r : Row) : Product :=
  { id := some r.id, sku := r.sku, name := r.name, category := r.category,
    unit_price_ht := r.unit_price_ht, vat_rate := r.vat_rate,
    quantity := r.quantity, created_at := r.created_at }

/-- The state of the two tables right after `SCHEMA_SQL` creates them in an
empty database: no rows, AUTOINCREMENT sequences starting at 1. -/
def freshTables : DBTables :=
  { products := [], sales := [], productSeq := 1, saleSeq := 1 }

/-- `SQLiteRepository.reset_and_create_schema` (repository.py lines 89-100):
drops `sales` then `products` and re-runs `SCHEMA_SQL`, so whatever the
previous state was, the result is the fresh empty schema (dropping a table
also deletes its `sqlite_sequence` entry, so ids restart at 1). -/
def reset_and_create_schema (_s : Store) : Store :=
  { tables := some freshTables }

/-- `SQLiteRepository.create_schema_if_needed` (repository.py lines 102-110):
`SCHEMA_SQL` uses CREATE TABLE IF NOT EXISTS, so existing tables and their
contents are untouched; a fresh database gets the empty schema. -/
def create_schema_if_needed (s : Store) : Store :=
  match s.tables with
  | none => { tables := some freshTables }
  | some _ => s

/-- Whether some row of the `products` table already carries this sku
(the UNIQUE constraint on `products.sku` in `SCHEMA_SQL`). -/
def skuTaken (rows : List Row) (sk : String) : Bool :=
  rows.any (fun r => r.sku == sk)

/-- The CHECK constraints `SCHEMA_SQL` declares on the `products` table:
`unit_price_ht >= 0`, `vat_rate >= 0 AND vat_rate <= 1`, `quantity >= 0`.
SQLite evaluates them against the new values on every INSERT and UPDATE. -/
def checksOk (price vat : Rat) (qty : Int) : Bool :=
  decide (0 ≤ price) && decide (0 ≤ vat) && decide (vat ≤ 1) && decide (0 ≤ qty)

/-- The `products` row written for product `p` under assigned id `idv` with
creation timestamp `createdAt`. -/
def mkRow (idv : Nat) (p : Product) (createdAt : String) : Row :=
  { id := idv, sku := p.sku, name := p.name, category := p.category,
    unit_price_ht := p.unit_price_ht, vat_rate := p.vat_rate,
    quantity := p.quantity, created_at := createdAt }

/-- repository.py line 120 binds `p.created_at or now_iso()` as the stored
creation timestamp: a falsy (empty) string falls back to the current time. -/
def createdAtOf (p : Product) : String :=
  if p.created_at = "" then now_iso else p.created_at

/-- `SQLiteRepository.insert_product` (repository.py lines 112-129).
With no tables, the INSERT fails ("no such table", an `sqlite3.Error`
surfaced as `DatabaseError`).  An `sqlite3.IntegrityError` — duplicate sku
(UNIQUE) or a violated CHECK constraint — is rolled back and surfaced as
`DatabaseError`, leaving the store unchanged.  Otherwise the row is inserted,
committed, and the assigned AUTOINCREMENT id returned. -/
def insert_product (s : Store) (p : Product) : Store × Except Err Nat :=
  match s.tables with
  | none => (s, Except.error Err.database)
  | some t =>
    if skuTaken t.products p.sku then (s, Except.error Err.database)
    else if checksOk p.unit_price_ht p.vat_rate p.quantity then
      ({ tables := some { t with
            products := t.products ++ [mkRow t.productSeq p (createdAtOf p)],
            productSeq := t.productSeq + 1 } },
       Except.ok t.productSeq)
    else (s, Except.error Err.database)

/-- The ORDER BY key of `list_products`: ascending sku.  SQLite BINARY
collation compares the UTF-8 bytes, which on valid UTF-8 text coincides with
the lexicographic order of the codepoint sequence, embedded here as the
order on the character list `String.data`. -/
def skuLe (a b : Row) : Prop := a.sku.data ≤ b.sku.data

instance : DecidableRel skuLe := fun a b => inferInstanceAs (Decidable (a.sku.data ≤ b.sku.data))

instance : IsTotal Row skuLe := ⟨fun a b => le_total a.sku.data b.sku.data⟩

instance : IsTrans Row skuLe := ⟨fun _ _ _ h1 h2 => le_trans h1 h2⟩

/-- `SQLiteRepository.list_products` (repository.py lines 131-146):
`SELECT * FROM products ORDER BY sku ASC`, each row rebuilt as a `Product`.
Without tables the SELECT fails and the error surfaces as `DatabaseError`
(the repository `connect` context manager catches every `sqlite3.Error`). -/
def list_products (s : Store) : Store × Except Err (List Product) :=
  match s.tables with
  | none => (s, Except.error Err.database)
  | some t =>
    (s, Except.ok ((List.insertionSort skuLe t.products).map rowToProduct))

/-- `InventoryManager.list_inventory` (services.py lines 65-68):
ensure the schema exists, then list. -/
def list_inventory (s : Store) : Store × Except Err (List Product) :=
  list_products (create_schema_if_needed s)

/-- The successfully listed inventory (defined value `[]` on the error
branch, which `list_inventory` never takes). -/
def inventoryRows (s : Store) : List Product :=
  match (list_inventory s).snd with
  | Except.ok l => l
  | Except.error _ => []

/-- Modelled from the spec: `SQLiteRepository.get_product_by_id` is missing
from the provided sources (repository.py leaves the full CRUD as a TODO and
only its caller `InventoryManager.get_product` is present).  Spec §4.2:
get-by-id "returns the entity or an absent/not-found result, never throws
for 'not found'".  A missing table is still a storage failure surfaced as
`DatabaseError`, like every other statement run through `connect`. -/
def get_product_by_id (s : Store) (pid : Nat) : Store × Except Err (Option Product) :=
  match s.tables with
  | none => (s, Except.error Err.database)
  | some t =>
    (s, Except.ok ((t.products.find? (fun r => r.id == pid)).map rowToProduct))

/-- Modelled from the spec: `SQLiteRepository.update_product` is missing from
the provided sources (only its caller `InventoryManager.update_product` is).
Spec §4.2: update "replaces the full row matching an id; fails if id
absent"; spec §4.1: the schema constraints (CHECKs, sku uniqueness) are
enforced by the store on every write, so a violating replacement row is
rejected as a `DatabaseError` and the store is left unchanged. -/
def repo_update_product (s : Store) (p : Product) : Store × Except Err Unit :=
  match s.tables with
  | none => (s, Except.error Err.database)
  | some t =>
    match p.id with
    | none => (s, Except.error Err.database)
    | some pid =>
      if (t.products.find? (fun r => r.id == pid)).isNone then
        (s, Except.error Err.database)
      else if t.products.any (fun r => decide (¬ r.id = pid ∧ r.sku = p.sku)) then
        (s, Except.error Err.database)
      else if checksOk p.unit_price_ht p.vat_rate p.quantity then
        ({ tables := some { t with
              products := t.products.map
                (fun r => if r.id == pid then mkRow pid p p.created_at else r) } },
         Except.ok ())
      else (s, Except.error Err.database)

/-- `InventoryManager.add_product` (services.py lines 70-82): build a
`Product` with the current timestamp and insert it.  The method body
contains no validation of any argument. -/
def add_product (s : Store) (sk nm cat : String) (price : Rat) (qty : Int)
    (vat : Rat) : Store × Except Err Nat :=
  insert_product s
    { id := none, sku := sk, name := nm, category := cat,
      unit_price_ht := price, vat_rate := vat, quantity := qty,
      created_at := now_iso }

/-- `InventoryManager.get_product` (services.py lines 84-87): ensure the
schema exists, then fetch by id. -/
def get_product (s : Store) (pid : Nat) : Store × Except Err (Option Product) :=
  get_product_by_id (create_schema_if_needed s) pid

/-- The option returned by a successful `get_product` (defined value `none`
on the error branch, which `get_product` never takes). -/
def got (s : Store) (pid : Nat) : Option Product :=
  match (get_product s pid).snd with
  | Except.ok o => o
  | Except.error _ => none

/-- `InventoryManager.update_product` (services.py lines 89-112): fetch the
existing product; on the not-found branch the source executes
`raise InventoryError(...)` (line 98) — but services.py never imports
`InventoryError` (its imports are AppConfig, Product, now_iso,
SQLiteRepository, load_initial_json only), so the Python interpreter raises
`NameError: name 'InventoryError' is not defined` on that branch; otherwise
a replacement `Product` is built keeping every absent optional field and the
original sku and created_at, and persisted via the repository update. -/
def update_product (s : Store) (pid : Nat) (nm cat : Option String)
    (price : Option Rat) (qty : Option Int) (vat : Option Rat) :
    Store × Except Err Unit :=
  match get_product_by_id s pid with
  | (s1, Except.error e) => (s1, Except.error e)
  | (s1, Except.ok none) => (s1, Except.error (Err.nameError "InventoryError"))
  | (s1, Except.ok (some existing)) =>
    repo_update_product s1
      { id := existing.id, sku := existing.sku,
        name := nm.getD existing.name, category := cat.getD existing.category,
        unit_price_ht := price.getD existing.unit_price_ht,
        quantity := qty.getD existing.quantity,
        vat_rate := vat.getD existing.vat_rate,
        created_at := existing.created_at }

/-- One element of the `products` array of the seed JSON document (spec §6);
JSON loading itself (`load_initial_json` in utils.py) is an external
collaborator, so `initialize_from_json` below receives the already-parsed
descriptor list. -/
structure SeedProduct where
  sku : String
  name : String
  category : String
  unit_price_ht : Rat
  quantity : Int
  vat_rate : Rat
  deriving DecidableEq, Repr

/-- services.py lines 50-58: the `Product` built from one seed descriptor,
with a freshly generated creation timestamp. -/
def seedToProduct (d : SeedProduct) : Product :=
  { id := none, sku := d.sku, name := d.name, category := d.category,
    unit_price_ht := d.unit_price_ht, vat_rate := d.vat_rate,
    quantity := d.quantity, created_at := now_iso }

/-- The `for p in products` loop of `initialize_from_json` (services.py
lines 48-60): insert each descriptor in turn — each `insert_product` call
commits on its own connection — counting successes; the first failing insert
propagates its error immediately, abandoning the loop (and the count). -/
def insertSeedLoop : Store → List SeedProduct → Nat → Store × Except Err Nat
  | s, [], count => (s, Except.ok count)
  | s, d :: ds, count =>
    match insert_product s (seedToProduct d) with
    | (s1, Except.ok _) => insertSeedLoop s1 ds (count + 1)
    | (s1, Except.error e) => (s1, Except.error e)

/-- `InventoryManager.initialize_from_json` (services.py lines 37-63):
reset the schema (or merely ensure it), then insert the descriptors one by
one, returning the count on full success. -/
def initialize_from_json (s : Store) (seed : List SeedProduct)
    (resetFlag : Bool) : Store × Except Err Nat :=
  insertSeedLoop
    (if resetFlag then reset_and_create_schema s else create_schema_if_needed s)
    seed 0

/-- What the menu loop of `main` (cli.py lines 220-239) does with one
choice string. -/
inductive CliAction where
  | initializeAct
  | listAct
  | addAct
  | updateAct
  | todoAct
  | quitAct
  | invalidAct
  deriving DecidableEq, Repr

/-- The dispatch of `main` (cli.py lines 225-239): choices "1".."4" run
their action handlers, "5"/"6"/"7" print a TODO message, "8" quits with
exit status 0, anything else reports an invalid choice and the menu is
shown again. -/
def dispatch (choice : String) : CliAction :=
  if choice = "1" then CliAction.initializeAct
  else if choice = "2" then CliAction.listAct
  else if choice = "3" then CliAction.addAct
  else if choice = "4" then CliAction.updateAct
  else if choice = "5" ∨ choice = "6" ∨ choice = "7" then CliAction.todoAct
  else if choice = "8" then CliAction.quitAct
  else CliAction.invalidAct

/-- The `InventoryManager` operations the CLI can invoke (services.py). -/
inductive ServiceOp where
  | initializeFromJsonOp
  | listInventoryOp
  | addProductOp
  | getProductOp
  | updateProductOp
  deriving DecidableEq, Repr

/-- The service calls each menu action issues on its main path, read off the
`action_*` handlers in cli.py: `action_initialize` calls
`initialize_from_json` (line 75), `action_list_inventory` calls
`list_inventory` (line 80), `action_add_product` calls `add_product`
(line 118, after CLI-side input parsing), `action_update_product` calls
`get_product` (line 140) and then `update_product` (line 191); the TODO
branch for choices 5-7 (line 234) only prints a message, and quitting and
invalid choices call nothing. -/
def serviceCallsOf : CliAction → List ServiceOp
  | CliAction.initializeAct => [ServiceOp.initializeFromJsonOp]
  | CliAction.listAct => [ServiceOp.listInventoryOp]
  | CliAction.addAct => [ServiceOp.addProductOp]
  | CliAction.updateAct => [ServiceOp.getProductOp, ServiceOp.updateProductOp]
  | CliAction.todoAct => []
  | CliAction.quitAct => []
  | CliAction.invalidAct => []

/-- The CHECK bounds `SCHEMA_SQL` declares on a `products` row. -/
def productRowOk (r : Row) : Prop :=
  0 ≤ r.unit_price_ht ∧ 0 ≤ r.vat_rate ∧ r.vat_rate ≤ 1 ∧ 0 ≤ r.quantity

instance (r : Row) : Decidable (productRowOk r) := by
  unfold productRowOk; infer_instance

/-- The CHECK bounds `SCHEMA_SQL` declares on a `sales` row. -/
def saleRowOk (r : SaleRow) : Prop :=
  0 < r.quantity ∧ 0 ≤ r.unit_price_ht ∧ 0 ≤ r.vat_rate ∧ r.vat_rate ≤ 1 ∧
    0 ≤ r.total_ht ∧ 0 ≤ r.total_vat ∧ 0 ≤ r.total_ttc

instance (r : SaleRow) : Decidable (saleRowOk r) := by
  unfold saleRowOk; infer_instance

/-- Everything `SCHEMA_SQL` enforces on the table contents, plus the two
primary-key facts SQLite maintains for AUTOINCREMENT tables (ids unique and
below the sequence counter): every `products` row within its CHECK bounds,
skus unique, every `sales` row within its CHECK bounds, and every sale's
`product_id` referencing an existing product (the FOREIGN KEY, whose ON
DELETE RESTRICT policy is never exercised — no operation in the sources
deletes rows). -/
def tablesInv (t : DBTables) : Prop :=
  (∀ r ∈ t.products, productRowOk r) ∧
    (t.products.map Row.sku).Nodup ∧
    (t.products.map Row.id).Nodup ∧
    (∀ r ∈ t.products, r.id < t.productSeq) ∧
    (∀ sl ∈ t.sales, saleRowOk sl) ∧
    (∀ sl ∈ t.sales, ∃ r ∈ t.products, r.id = sl.product_id)

instance (t : DBTables) : Decidable (tablesInv t) := by
  unfold tablesInv; infer_instance

/-- The schema-enforced store invariant: vacuous while the tables do not
exist, `tablesInv` once they do. -/
def StoreInvariant (s : Store) : Prop :=
  match s.tables with
  | none => True
  | some t => tablesInv t

instance (s : Store) : Decidable (StoreInvariant s) :=
  match s with
  | { tables := none } => isTrue trivial
  | { tables := some t } => inferInstanceAs (Decidable (tablesInv t))

/-- The stores reachable from a fresh database file through the modelled
write operations (the two schema lifecycle calls, the repository insert,
and the spec-modelled repository update; reads change nothing). -/
inductive Reachable : Store → Prop where
  | init : Reachable { tables := none }
  | resetStep (s : Store) : Reachable s → Reachable (reset_and_create_schema s)
  | ensureStep (s : Store) : Reachable s → Reachable (create_schema_if_needed s)
  | insertStep (s : Store) (p : Product) : Reachable s →
      Reachable (insert_product s p).fst
  | updateStep (s : Store) (p : Product) : Reachable s →
      Reachable (repo_update_product s p).fst

/-- A freshly reset store: empty schema present. -/
def freshStore : Store := reset_and_create_schema { tables := none }

/-- A concrete two-product store (skus deliberately out of order) used by
the witnesses below. -/
def demoRowB : Row :=
  { id := 1, sku := "B-2", name := "Stylo", category := "Papeterie",
    unit_price_ht := 2, vat_rate := mkRat 1 5, quantity := 4,
    created_at := now_iso }

/-- Second demo row, sku ordered before `demoRowB`. -/
def demoRowA : Row :=
  { id := 2, sku := "A-1", name := "Cahier", category := "Papeterie",
    unit_price_ht := 3, vat_rate := mkRat 1 10, quantity := 7,
    created_at := now_iso }

/-- Demo store holding `demoRowB` then `demoRowA`. -/
def demoStore : Store :=
  { tables := some { products := [demoRowB, demoRowA], sales := [],
                     productSeq := 3, saleSeq := 1 } }

/-- A concrete seed descriptor used by the witnesses below. -/
def seedA : SeedProduct :=
  { sku := "A-1", name := "Cahier", category := "Papeterie",
    unit_price_ht := 3, quantity := 7, vat_rate := mkRat 1 10 }

/-- The row `seedA` receives when imported first into a fresh database. -/
def seedRowA : Row :=
  { id := 1, sku := "A-1", name := "Cahier", category := "Papeterie",
    unit_price_ht := 3, vat_rate := mkRat 1 10, quantity := 7,
    created_at := now_iso }

/-- The store obtained by resetting a fresh database and importing `seedA`
once. -/
def seedStoreA : Store :=
  { tables := some
      { products := [seedRowA], sales := [], productSeq := 2, saleSeq := 1 } }

/-! ### Helper lemmas -/

/-- The Boolean CHECK evaluation agrees with the propositional bounds. -/
theorem checksOk_iff (price vat : Rat) (qty : Int) :
    checksOk price vat qty = true ↔
      (0 ≤ price ∧ 0 ≤ vat ∧ vat ≤ 1 ∧ 0 ≤ qty) := by
  simp [checksOk, and_assoc]

/-- A sku is free exactly when no stored row carries it. -/
theorem skuTaken_eq_false_iff (rows : List Row) (sk : String) :
    skuTaken rows sk = false ↔ ∀ r ∈ rows, ¬ r.sku = sk := by
  simp [skuTaken]

/-- A failed insert leaves the store untouched. -/
theorem insert_product_error_fst (s : Store) (p : Product) (e : Err)
    (h : (insert_product s p).snd = Except.error e) :
    (insert_product s p).fst = s := by
  cases s with
  | mk tabs =>
    cases tabs with
    | none => rfl
    | some t =>
      by_cases hsku : skuTaken t.products p.sku
      · simp [insert_product, hsku]
      · by_cases hchk : checksOk p.unit_price_ht p.vat_rate p.quantity
        · simp [insert_product, hsku, hchk] at h
        · simp [insert_product, hsku, hchk]

/-! ### C7 — reset then list is empty -/

/-- C7: for every initial store state, `reset_and_create_schema` followed by
`list_inventory` returns an empty sequence of products. -/
theorem reset_then_list_empty (s : Store) :
    (list_inventory (reset_and_create_schema s)).snd = Except.ok [] := rfl

/-! ### C9 — CLI menu dispatch -/

/-- C9 counterexample: the claim says every one of the 8 menu options maps
1:1 to a call of the corresponding service operation; but choice "5"
(delete) lands in the TODO branch of `main` (cli.py line 233-234), which
only prints a message and invokes no `InventoryManager` operation at all. -/
theorem dispatch_todo_counterexample :
    dispatch "5" = CliAction.todoAct ∧
      serviceCallsOf (dispatch "5") = [] ∧
      serviceCallsOf (dispatch "6") = [] ∧
      serviceCallsOf (dispatch "7") = [] := by
  refine ⟨rfl, rfl, rfl, rfl⟩

/-- C9 amended: menu options 1-4 map to their service calls (initialize,
list, add, update — the update handler also performs a preliminary get);
options 5-7 (delete, sell, dashboard) print a TODO message and invoke no
service operation; option 8 quits; any other choice is reported invalid. -/
theorem dispatch_service_mapping :
    dispatch "1" = CliAction.initializeAct ∧
      serviceCallsOf CliAction.initializeAct = [ServiceOp.initializeFromJsonOp] ∧
      dispatch "2" = CliAction.listAct ∧
      serviceCallsOf CliAction.listAct = [ServiceOp.listInventoryOp] ∧
      dispatch "3" = CliAction.addAct ∧
      serviceCallsOf CliAction.addAct = [ServiceOp.addProductOp] ∧
      dispatch "4" = CliAction.updateAct ∧
      serviceCallsOf CliAction.updateAct =
        [ServiceOp.getProductOp, ServiceOp.updateProductOp] ∧
      dispatch "5" = CliAction.todoAct ∧
      dispatch "6" = CliAction.todoAct ∧
      dispatch "7" = CliAction.todoAct ∧
      serviceCallsOf CliAction.todoAct = [] ∧
      dispatch "8" = CliAction.quitAct ∧
      serviceCallsOf CliAction.quitAct = [] ∧
      dispatch "0" = CliAction.invalidAct ∧
      dispatch "9" = CliAction.invalidAct := by
  decide

/-! ### C3 — update of a missing id -/

/-- C3: on a store with schema but no products, updating id 1 (any absent
id) reaches the not-found branch of `InventoryManager.update_product`
(services.py line 98), whose `raise InventoryError(...)` references a name
the module never imports: the call raises a raw Python `NameError`, not the
domain `InventoryError` the claim (and the code's own intent) requires. -/
theorem update_missing_id_name_error :
    update_product freshStore 1 none none none none none =
      (freshStore, Except.error (Err.nameError "InventoryError")) := rfl

/-! ### C1 — add_product performs no validation -/

/-- C1 counterexample: the claim says an empty sku (or any out-of-bounds
number) makes `add_product` raise a `ValidationError` naming the field
before any store operation.  In the source the method body has no validation
at all: with an empty sku the product is simply inserted (the store gains a
row and the new id is returned), and with a negative price the insert is
attempted and fails inside the store with a `DatabaseError` — in neither
case is a `ValidationError` raised. -/
theorem add_product_no_validation_counterexample :
    (add_product freshStore "" "Stylo" "Papeterie" 1 1 (mkRat 1 5)).snd =
        Except.ok 1 ∧
      productsOf (add_product freshStore "" "Stylo" "Papeterie" 1 1 (mkRat 1 5)).fst =
        [{ id := 1, sku := "", name := "Stylo", category := "Papeterie",
           unit_price_ht := 1, vat_rate := mkRat 1 5, quantity := 1,
           created_at := now_iso }] ∧
      (add_product freshStore "X" "Stylo" "Papeterie" (-1) 1 (mkRat 1 5)).snd =
        Except.error Err.database := by
  refine ⟨rfl, by decide, rfl⟩

/-- C1 amended: `add_product` performs no service-layer validation.  A
negative price, a negative quantity, or a vat rate outside [0,1] reaches the
store, where the attempted insert is rejected by the schema CHECK
constraints as a `DatabaseError`, the store left unchanged; an empty sku is
not rejected at all — the product is inserted and its new id returned. -/
theorem add_product_no_validation :
    (∀ (s : Store) (sk nm cat : String) (price : Rat) (qty : Int) (vat : Rat),
        price < 0 ∨ qty < 0 ∨ vat < 0 ∨ 1 < vat →
          add_product s sk nm cat price qty vat =
            (s, Except.error Err.database)) ∧
      (add_product freshStore "" "Cahier" "Papeterie" 2 3 (mkRat 1 10)).snd =
        Except.ok 1 := by
  refine ⟨?_, rfl⟩
  intro s sk nm cat price qty vat h
  have hchk : checksOk price vat qty = false := by
    rw [← Bool.not_eq_true, checksOk_iff]
    rcases h with h | h | h | h
    · exact fun hc => absurd hc.1 (not_le.mpr h)
    · exact fun hc => absurd hc.2.2.2 (not_le.mpr h)
    · exact fun hc => absurd hc.2.1 (not_le.mpr h)
    · exact fun hc => absurd hc.2.2.1 (not_le.mpr h)
  cases s with
  | mk tabs =>
    cases tabs with
    | none => rfl
    | some t =>
      by_cases hsku : skuTaken t.products sk
      · simp [add_product, insert_product, hsku]
      · simp [add_product, insert_product, hsku, hchk]

/-- C1 amended, witness: the no-validation behaviour at a concrete invalid
input — a negative price on the fresh store yields the database error, not a
validation error, and the store is unchanged. -/
theorem add_product_no_validation_witness :
    add_product freshStore "W" "Stylo" "Papeterie" (-2) 1 (mkRat 1 5) =
      (freshStore, Except.error Err.database) :=
  add_product_no_validation.1 freshStore "W" "Stylo" "Papeterie" (-2) 1 (mkRat 1 5)
    (Or.inl (by decide))

/-! ### C4 — duplicate sku insert fails and changes nothing -/

/-- C4: on every store already containing a row with the sku of `p`,
`insert_product` fails with the domain `DatabaseError` (the UNIQUE
constraint on `products.sku`) and the store — in particular the `products`
table — is exactly unchanged. -/
theorem insert_duplicate_sku (s : Store) (p : Product) (r : Row)
    (hmem : r ∈ productsOf s) (hsku : r.sku = p.sku) :
    insert_product s p = (s, Except.error Err.database) := by
  cases s with
  | mk tabs =>
    cases tabs with
    | none => simp [productsOf] at hmem
    | some t =>
      have hmem' : r ∈ t.products := by simpa [productsOf] using hmem
      have htaken : skuTaken t.products p.sku = true := by
        simp only [skuTaken, List.any_eq_true]
        exact ⟨r, hmem', by simp [hsku]⟩
      simp [insert_product, htaken]

/-- C4 witness: inserting a second product with sku "A-1" into the demo
store (which already holds `demoRowA` with that sku) fails with
`DatabaseError` and leaves the demo store unchanged. -/
theorem insert_duplicate_sku_witness :
    insert_product demoStore
        { id := none, sku := "A-1", name := "Copie", category := "Papeterie",
          unit_price_ht := 9, vat_rate := mkRat 1 5, quantity := 2,
          created_at := now_iso } =
      (demoStore, Except.error Err.database) :=
  insert_duplicate_sku demoStore _ demoRowA (by decide) rfl

/-! ### C2 — get_product is total -/

/-- Ensuring the schema never changes the stored products. -/
theorem productsOf_create_schema_if_needed (s : Store) :
    productsOf (create_schema_if_needed s) = productsOf s := by
  cases s with
  | mk tabs => cases tabs <;> rfl

/-- C2: `get_product` never fails — for every id it answers `Except.ok`:
`none` exactly when no stored row carries the id, and the stored product
(with its id made present) when one does. -/
theorem get_product_total (s : Store) (pid : Nat) :
    (get_product s pid).snd = Except.ok (got s pid) ∧
      (got s pid = none → ∀ r ∈ productsOf s, ¬ r.id = pid) ∧
      (∀ p, got s pid = some p →
        ∃ r ∈ productsOf s, r.id = pid ∧ p = rowToProduct r) := by
  cases s with
  | mk tabs =>
    cases tabs with
    | none =>
      refine ⟨rfl, fun _ r hr => absurd hr (by simp [productsOf]), ?_⟩
      intro p hp
      simp [got, get_product, get_product_by_id, create_schema_if_needed,
        freshTables] at hp
    | some t =>
      cases hf : t.products.find? (fun r => r.id == pid) with
      | none =>
        refine ⟨?_, ?_, ?_⟩
        · simp [got, get_product, get_product_by_id, create_schema_if_needed, hf]
        · intro _ r hr
          have := List.find?_eq_none.mp hf r hr
          simpa using this
        · intro p hp
          simp [got, get_product, get_product_by_id, create_schema_if_needed,
            hf] at hp
      | some r0 =>
        refine ⟨?_, ?_, ?_⟩
        · simp [got, get_product, get_product_by_id, create_schema_if_needed, hf]
        · intro h
          simp [got, get_product, get_product_by_id, create_schema_if_needed,
            hf] at h
        · intro p hp
          have hp' : p = rowToProduct r0 := by
            simp [got, get_product, get_product_by_id, create_schema_if_needed,
              hf] at hp
            exact hp.symm
          have hid : r0.id = pid := by
            have := List.find?_some hf
            simpa using this
          exact ⟨r0, by simpa [productsOf] using List.mem_of_find?_eq_some hf,
            hid, hp'⟩

/-- C2 witness: at the demo store, fetching id 1 succeeds and yields the
stored row `demoRowB`. -/
theorem get_product_total_witness :
    (get_product demoStore 1).snd = Except.ok (got demoStore 1) ∧
      got demoStore 1 = some (rowToProduct demoRowB) :=
  ⟨(get_product_total demoStore 1).1, by decide⟩

/-! ### C5 — listing is sku-sorted, complete and deterministic -/

/-- `list_inventory` in closed form: ensure the schema, sort the stored rows
by sku, rebuild the entities. -/
theorem list_inventory_eq (s : Store) :
    list_inventory s =
      (create_schema_if_needed s,
        Except.ok ((List.insertionSort skuLe (productsOf s)).map rowToProduct)) := by
  cases s with
  | mk tabs => cases tabs <;> rfl

/-- The successfully listed inventory in closed form. -/
theorem inventoryRows_eq (s : Store) :
    inventoryRows s = (List.insertionSort skuLe (productsOf s)).map rowToProduct := by
  simp [inventoryRows, list_inventory_eq]

/-- C5: `list_inventory` always succeeds; its result is ordered by sku
ascending, is a permutation of (exactly) the stored products, and depends
only on the stored products — two stores with the same `products` table list
identically, so the result is deterministic for a given store state. -/
theorem list_inventory_sorted_complete (s : Store) :
    (list_inventory s).snd = Except.ok (inventoryRows s) ∧
      (inventoryRows s).Pairwise (fun a b : Product => a.sku.data ≤ b.sku.data) ∧
      (inventoryRows s).Perm ((productsOf s).map rowToProduct) ∧
      (∀ s' : Store, productsOf s' = productsOf s →
        inventoryRows s' = inventoryRows s) := by
  refine ⟨?_, ?_, ?_, ?_⟩
  · rw [list_inventory_eq, inventoryRows_eq]
  · rw [inventoryRows_eq]
    refine List.pairwise_map.mpr ?_
    exact (List.sorted_insertionSort skuLe (productsOf s)).imp (fun h => h)
  · rw [inventoryRows_eq]
    exact (List.perm_insertionSort skuLe (productsOf s)).map rowToProduct
  · intro s' h
    rw [inventoryRows_eq, inventoryRows_eq, h]

/-- C5 witness: at the demo store (rows stored sku-out-of-order) the listing
succeeds, and its value is the sku-sorted pair of stored products. -/
theorem list_inventory_sorted_complete_witness :
    (list_inventory demoStore).snd = Except.ok (inventoryRows demoStore) ∧
      inventoryRows demoStore = inventoryRows demoStore ∧
      inventoryRows demoStore = [rowToProduct demoRowA, rowToProduct demoRowB] :=
  ⟨(list_inventory_sorted_complete demoStore).1,
    (list_inventory_sorted_complete demoStore).2.2.2 demoStore rfl,
    by decide⟩

/-! ### C6 — all-optional update is a no-op -/

/-- Under unique ids, `find?` by id returns exactly the member carrying it. -/
theorem find?_id_eq_of_nodup (l : List Row) (r : Row) (pid : Nat)
    (hnd : (l.map Row.id).Nodup) (hmem : r ∈ l) (hid : r.id = pid) :
    l.find? (fun x => x.id == pid) = some r := by
  induction l with
  | nil => cases hmem
  | cons a tl ih =>
    rw [List.map_cons, List.nodup_cons] at hnd
    rcases List.mem_cons.mp hmem with h | h
    · subst h
      simp [List.find?_cons, hid]
    · have hane : (a.id == pid) = false := by
        refine beq_eq_false_iff_ne.mpr ?_
        intro hc
        exact hnd.1 (by rw [hc, ← hid]; exact List.mem_map_of_mem Row.id h)
      rw [List.find?_cons, hane]
      exact ih hnd.2 h

/-- C6: on a store satisfying the schema invariant, updating an existing
product with every optional field absent succeeds and changes nothing: the
whole store (hence every field of every product, ids, skus, prices,
quantities, vat rates and creation timestamps included) is exactly as
before the call. -/
theorem update_product_noop (s : Store) (pid : Nat) (r : Row)
    (hinv : StoreInvariant s) (hmem : r ∈ productsOf s) (hid : r.id = pid) :
    update_product s pid none none none none none = (s, Except.ok ()) := by
  subst hid
  cases s with
  | mk tabs =>
    cases tabs with
    | none => simp [productsOf] at hmem
    | some t =>
      have hmem' : r ∈ t.products := by simpa [productsOf] using hmem
      have hinv' : tablesInv t := hinv
      obtain ⟨hok, hskund, hidnd, -, -, -⟩ := hinv'
      have hfind : t.products.find? (fun x => x.id == r.id) = some r :=
        find?_id_eq_of_nodup t.products r r.id hidnd hmem' rfl
      have hchk : checksOk r.unit_price_ht r.vat_rate r.quantity = true :=
        (checksOk_iff r.unit_price_ht r.vat_rate r.quantity).mpr (hok r hmem')
      have hany : (t.products.any
          (fun x => decide (¬ x.id = r.id ∧ x.sku = r.sku))) = false := by
        rw [List.any_eq_false]
        intro x hx
        simp only [decide_eq_true_eq]
        intro hc
        exact hc.1 (congrArg Row.id
          (List.inj_on_of_nodup_map hskund hx hmem' hc.2))
      have hup : update_product (Store.mk (some t)) r.id none none none none none =
          repo_update_product (Store.mk (some t)) (rowToProduct r) := by
        unfold update_product
        rw [show get_product_by_id (Store.mk (some t)) r.id =
          (Store.mk (some t), Except.ok (some (rowToProduct r))) by
            simp [get_product_by_id, hfind]]
        rfl
      have hrepl : (t.products.map
          (fun x => if x.id == r.id then
            mkRow r.id
              { id := some r.id, sku := r.sku, name := r.name,
                category := r.category, unit_price_ht := r.unit_price_ht,
                vat_rate := r.vat_rate, quantity := r.quantity,
                created_at := r.created_at }
              r.created_at else x)) = t.products := by
        have hpt : ∀ x ∈ t.products,
            (if x.id == r.id then
              mkRow r.id
                { id := some r.id, sku := r.sku, name := r.name,
                  category := r.category, unit_price_ht := r.unit_price_ht,
                  vat_rate := r.vat_rate, quantity := r.quantity,
                  created_at := r.created_at }
                r.created_at else x) = x := by
          intro x hx
          by_cases hxr : x.id = r.id
          · have hxeq : x = r := List.inj_on_of_nodup_map hidnd hx hmem' hxr
            subst hxeq
            rw [if_pos (by simp)]
            rfl
          · rw [if_neg (by simp [hxr])]
        rw [List.map_congr_left hpt]
        simp
      have hrepo : repo_update_product (Store.mk (some t)) (rowToProduct r) =
          (Store.mk (some t), Except.ok ()) := by
        simp only [repo_update_product, rowToProduct, hfind]
        rw [if_neg (by simp), if_neg ?hc2, if_pos ?hc3]
        case hc2 =>
          intro hc
          rw [hany] at hc
          exact Bool.false_ne_true hc
        case hc3 => exact hchk
        rw [hrepl]
      rw [hup, hrepo]

/-- C6 witness: the no-op update of product id 1 on the demo store succeeds
and returns the store unchanged. -/
theorem update_product_noop_witness :
    update_product demoStore 1 none none none none none =
      (demoStore, Except.ok ()) :=
  update_product_noop demoStore 1 demoRowB (by decide) (by decide) rfl

/-! ### C10 — fail-fast JSON import -/

/-- A successful insert appends exactly the new row (and bumps the id
sequence). -/
theorem insert_product_ok_products (s : Store) (p : Product) (s1 : Store)
    (idv : Nat) (h : insert_product s p = (s1, Except.ok idv)) :
    productsOf s1 = productsOf s ++ [mkRow idv p (createdAtOf p)] := by
  cases s with
  | mk tabs =>
    cases tabs with
    | none => simp [insert_product] at h
    | some t =>
      by_cases hsku : skuTaken t.products p.sku
      · simp [insert_product, hsku] at h
      · by_cases hchk : checksOk p.unit_price_ht p.vat_rate p.quantity
        · simp only [insert_product, hsku, hchk, Bool.false_eq_true,
            if_false, if_true, ite_true, ite_false] at h
          injection h with h1 h2
          injection h2 with h3
          rw [← h1, ← h3]
          simp [productsOf]
        · simp [insert_product, hsku, hchk] at h

/-- During a successful run of the seeding loop the `products` table only
grows: the initial contents stay as a prefix. -/
theorem insertSeedLoop_prefix (l : List SeedProduct) :
    ∀ (s s2 : Store) (n k : Nat),
      insertSeedLoop s l n = (s2, Except.ok k) →
        productsOf s <+: productsOf s2 := by
  induction l with
  | nil =>
    intro s s2 n k h
    injection h with h1 h2
    rw [h1]
  | cons d ds ih =>
    intro s s2 n k h
    rw [insertSeedLoop] at h
    cases hi : insert_product s (seedToProduct d) with
    | mk s1 res =>
      rw [hi] at h
      cases res with
      | error e => simp at h
      | ok idv =>
        have hpre : productsOf s <+: productsOf s1 :=
          ⟨[mkRow idv (seedToProduct d) (createdAtOf (seedToProduct d))],
            (insert_product_ok_products s (seedToProduct d) s1 idv hi).symm⟩
        exact hpre.trans (ih s1 s2 (n + 1) k h)

/-- Every descriptor consumed by a successful run of the seeding loop has
its sku present in the final store. -/
theorem insertSeedLoop_mem_sku (l : List SeedProduct) :
    ∀ (s s2 : Store) (n k : Nat),
      insertSeedLoop s l n = (s2, Except.ok k) →
        ∀ d ∈ l, ∃ r ∈ productsOf s2, r.sku = d.sku := by
  induction l with
  | nil => intro s s2 n k _ d hd; cases hd
  | cons a tl ih =>
    intro s s2 n k h d hd
    rw [insertSeedLoop] at h
    cases hi : insert_product s (seedToProduct a) with
    | mk s1 res =>
      rw [hi] at h
      cases res with
      | error e => simp at h
      | ok idv =>
        rcases List.mem_cons.mp hd with rfl | hd'
        · have hrow : mkRow idv (seedToProduct d) (createdAtOf (seedToProduct d)) ∈
              productsOf s1 := by
            rw [insert_product_ok_products s (seedToProduct d) s1 idv hi]
            exact List.mem_append_right _ (List.mem_singleton.mpr rfl)
          have hmono := insertSeedLoop_prefix tl s1 s2 (n + 1) k h
          exact ⟨mkRow idv (seedToProduct d) (createdAtOf (seedToProduct d)),
            hmono.subset hrow, rfl⟩
        · exact ih s1 s2 (n + 1) k h d hd'

/-- A successful prefix of the seeding loop composes with the rest of the
list: the loop continues from where the prefix left off. -/
theorem insertSeedLoop_append (l1 : List SeedProduct) :
    ∀ (l2 : List SeedProduct) (s s2 : Store) (n k : Nat),
      insertSeedLoop s l1 n = (s2, Except.ok k) →
        insertSeedLoop s (l1 ++ l2) n = insertSeedLoop s2 l2 k := by
  induction l1 with
  | nil =>
    intro l2 s s2 n k h
    injection h with h1 h2
    injection h2 with h3
    rw [List.nil_append, h1, h3]
  | cons a tl ih =>
    intro l2 s s2 n k h
    rw [insertSeedLoop] at h
    rw [List.cons_append, insertSeedLoop]
    cases hi : insert_product s (seedToProduct a) with
    | mk s1 res =>
      rw [hi] at h
      cases res with
      | error e => simp at h
      | ok idv => exact ih l2 s1 s2 (n + 1) k h

/-- C10: `initialize_from_json` is fail-fast, not all-or-nothing.  If every
descriptor of `good` inserts successfully and the next descriptor `d` fails,
the whole import fails with `d`'s error — no count is returned — while the
store keeps the state reached after `good`: in particular a row for every
descriptor of `good` remains committed. -/
theorem initialize_from_json_fail_fast (s : Store) (good : List SeedProduct)
    (d : SeedProduct) (rest : List SeedProduct) (rFlag : Bool) (s2 : Store)
    (e : Err)
    (hgood : insertSeedLoop
        (if rFlag then reset_and_create_schema s else create_schema_if_needed s)
        good 0 = (s2, Except.ok good.length))
    (hfail : (insert_product s2 (seedToProduct d)).snd = Except.error e) :
    initialize_from_json s (good ++ d :: rest) rFlag = (s2, Except.error e) ∧
      ∀ dd ∈ good, ∃ r ∈ productsOf s2, r.sku = dd.sku := by
  constructor
  · rw [initialize_from_json,
      insertSeedLoop_append good (d :: rest) _ s2 0 good.length hgood,
      insertSeedLoop]
    cases hi : insert_product s2 (seedToProduct d) with
    | mk s3 res =>
      have hres : res = Except.error e := by rw [hi] at hfail; exact hfail
      subst hres
      have hs3 : s3 = s2 := by
        have := insert_product_error_fst s2 (seedToProduct d) e
          (by rw [hi])
        rw [hi] at this
        exact this
      rw [hs3]
  · exact insertSeedLoop_mem_sku good _ s2 0 good.length hgood

/-- C10 witness: seeding a fresh database with the same descriptor twice
commits the first copy, then fails on the duplicate sku with `DatabaseError`
— the already-imported row stays in the store and no count is returned. -/
theorem initialize_from_json_fail_fast_witness :
    initialize_from_json { tables := none } [seedA, seedA] true =
      (seedStoreA, Except.error Err.database) :=
  (initialize_from_json_fail_fast { tables := none } [seedA] seedA [] true
    seedStoreA Err.database (by rfl) (by rfl)).1

/-! ### C8 — constraints enforced by the schema -/

/-- The fresh empty schema satisfies every schema constraint. -/
theorem tablesInv_freshTables : tablesInv freshTables := by decide

/-- Two pairwise facts about the same list combine pointwise. -/
theorem pairwise_combine {α : Type} {R S : α → α → Prop} (l : List α)
    (hR : l.Pairwise R) (hS : l.Pairwise S) :
    l.Pairwise (fun a b => R a b ∧ S a b) := by
  induction l with
  | nil => exact List.Pairwise.nil
  | cons a tl ih =>
    rcases List.pairwise_cons.mp hR with ⟨hRa, hRtl⟩
    rcases List.pairwise_cons.mp hS with ⟨hSa, hStl⟩
    exact List.pairwise_cons.mpr ⟨fun b hb => ⟨hRa b hb, hSa b hb⟩, ih hRtl hStl⟩

/-- An insert that passes the UNIQUE and CHECK constraints preserves every
schema constraint. -/
theorem tablesInv_insert (t : DBTables) (p : Product) (c : String)
    (hinv : tablesInv t)
    (hsku : skuTaken t.products p.sku = false)
    (hchk : checksOk p.unit_price_ht p.vat_rate p.quantity = true) :
    tablesInv { t with
      products := t.products ++ [mkRow t.productSeq p c],
      productSeq := t.productSeq + 1 } := by
  obtain ⟨hok, hsknd, hidnd, hbnd, hsale, hfk⟩ := hinv
  have hb := (checksOk_iff p.unit_price_ht p.vat_rate p.quantity).mp hchk
  have hfree : ∀ r ∈ t.products, ¬ r.sku = p.sku :=
    (skuTaken_eq_false_iff t.products p.sku).mp hsku
  refine ⟨?_, ?_, ?_, ?_, hsale, ?_⟩
  · intro r hr
    rcases List.mem_append.mp hr with h | h
    · exact hok r h
    · rw [List.mem_singleton.mp h]
      exact ⟨hb.1, hb.2.1, hb.2.2.1, hb.2.2.2⟩
  · rw [List.map_append]
    refine List.nodup_append.mpr ⟨hsknd, by simp, ?_⟩
    intro a ha hb'
    simp only [List.map_cons, List.map_nil, List.mem_singleton] at hb'
    rcases List.mem_map.mp ha with ⟨r, hrm, hrsku⟩
    exact hfree r hrm (by rw [hrsku, hb']; rfl)
  · rw [List.map_append]
    refine List.nodup_append.mpr ⟨hidnd, by simp, ?_⟩
    intro a ha hb'
    simp only [List.map_cons, List.map_nil, List.mem_singleton] at hb'
    rcases List.mem_map.mp ha with ⟨r, hrm, hrid⟩
    have hlt : r.id < t.productSeq := hbnd r hrm
    rw [hrid, hb'] at hlt
    exact lt_irrefl _ hlt
  · intro r hr
    rcases List.mem_append.mp hr with h | h
    · exact Nat.lt_succ_of_lt (hbnd r h)
    · rw [List.mem_singleton.mp h]
      exact Nat.lt_succ_self _
  · intro sl hsl
    obtain ⟨r, hrm, hrid⟩ := hfk sl hsl
    exact ⟨r, List.mem_append_left _ hrm, hrid⟩

/-- An update that passes the row-exists, UNIQUE and CHECK conditions
preserves every schema constraint. -/
theorem tablesInv_update (t : DBTables) (p : Product) (pid : Nat)
    (hinv : tablesInv t)
    (hany : (t.products.any
      (fun x => decide (¬ x.id = pid ∧ x.sku = p.sku))) = false)
    (hchk : checksOk p.unit_price_ht p.vat_rate p.quantity = true) :
    tablesInv { t with
      products := t.products.map
        (fun x => if x.id == pid then mkRow pid p p.created_at else x) } := by
  obtain ⟨hok, hsknd, hidnd, hbnd, hsale, hfk⟩ := hinv
  have hb := (checksOk_iff p.unit_price_ht p.vat_rate p.quantity).mp hchk
  have hanyP : ∀ x ∈ t.products, ¬ x.id = pid → ¬ x.sku = p.sku := by
    rw [List.any_eq_false] at hany
    intro x hx hxid hxsku
    exact (hany x hx) (by simp only [decide_eq_true_eq]; exact ⟨hxid, hxsku⟩)
  have hid_pres : ∀ x : Row,
      (if x.id == pid then mkRow pid p p.created_at else x).id = x.id := by
    intro x
    by_cases hxr : x.id = pid
    · rw [if_pos (by simp [hxr])]
      exact hxr.symm
    · rw [if_neg (by simp [hxr])]
  have hidmap : ((t.products.map
      (fun x => if x.id == pid then mkRow pid p p.created_at else x)).map Row.id) =
      t.products.map Row.id := by
    rw [List.map_map]
    exact List.map_congr_left (fun x _ => hid_pres x)
  refine ⟨?_, ?_, ?_, ?_, hsale, ?_⟩
  · intro r hr
    rcases List.mem_map.mp hr with ⟨x, hx, hfx⟩
    rw [← hfx]
    by_cases hxr : x.id = pid
    · rw [if_pos (by simp [hxr])]
      exact ⟨hb.1, hb.2.1, hb.2.2.1, hb.2.2.2⟩
    · rw [if_neg (by simp [hxr])]
      exact hok x hx
  · have hskpw : t.products.Pairwise (fun a b => ¬ a.sku = b.sku) :=
      List.pairwise_map.mp hsknd
    have hidpw : t.products.Pairwise (fun a b => ¬ a.id = b.id) :=
      List.pairwise_map.mp hidnd
    have hcomb := pairwise_combine t.products hskpw hidpw
    rw [List.map_map]
    refine List.pairwise_map.mpr ?_
    refine List.Pairwise.imp_of_mem ?_ hcomb
    intro a b ha hb' hab
    by_cases ha' : a.id = pid
    · by_cases hb'' : b.id = pid
      · exact absurd (ha'.trans hb''.symm) hab.2
      · simp only [Function.comp]
        rw [if_pos (by simp [ha']), if_neg (by simp [hb''])]
        intro hc
        exact hanyP b hb' hb'' (by rw [← hc]; rfl)
    · by_cases hb'' : b.id = pid
      · simp only [Function.comp]
        rw [if_neg (by simp [ha']), if_pos (by simp [hb''])]
        intro hc
        exact hanyP a ha ha' (by rw [hc]; rfl)
      · simp only [Function.comp]
        rw [if_neg (by simp [ha']), if_neg (by simp [hb''])]
        exact hab.1
  · rw [hidmap]
    exact hidnd
  · intro r hr
    rcases List.mem_map.mp hr with ⟨x, hx, hfx⟩
    rw [← hfx, hid_pres x]
    exact hbnd x hx
  · intro sl hsl
    obtain ⟨r, hrm, hrid⟩ := hfk sl hsl
    refine ⟨(if r.id == pid then mkRow pid p p.created_at else r),
      List.mem_map_of_mem _ hrm, ?_⟩
    rw [hid_pres r]
    exact hrid

/-- C8: every store reachable through the modelled operations satisfies the
schema-enforced constraints at all times: product rows within their CHECK
bounds (price ≥ 0, vat rate in [0,1], quantity ≥ 0), skus unique, sale rows
within their CHECK bounds (quantity > 0, totals ≥ 0), and every sale's
foreign key referencing an existing product — no operation ever deletes a
referenced product (none deletes anything), so the RESTRICT policy is never
violated. -/
theorem reachable_store_invariant (s : Store) (h : Reachable s) :
    StoreInvariant s := by
  induction h with
  | init => trivial
  | resetStep s' _ _ => exact tablesInv_freshTables
  | ensureStep s' _ ih =>
    cases s' with
    | mk tabs =>
      cases tabs with
      | none => exact tablesInv_freshTables
      | some t => exact ih
  | insertStep s' p _ ih =>
    cases s' with
    | mk tabs =>
      cases tabs with
      | none => trivial
      | some t =>
        by_cases hsku : skuTaken t.products p.sku
        · rw [show insert_product (Store.mk (some t)) p =
            (Store.mk (some t), Except.error Err.database) from by
              simp [insert_product, hsku]]
          exact ih
        · by_cases hchk : checksOk p.unit_price_ht p.vat_rate p.quantity
          · rw [show insert_product (Store.mk (some t)) p =
              (Store.mk (some { t with
                products := t.products ++
                  [mkRow t.productSeq p (createdAtOf p)],
                productSeq := t.productSeq + 1 }),
               Except.ok t.productSeq) from by
                simp [insert_product, hsku, hchk]]
            exact tablesInv_insert t p (createdAtOf p) ih
              (by rwa [Bool.not_eq_true] at hsku) hchk
          · rw [show insert_product (Store.mk (some t)) p =
              (Store.mk (some t), Except.error Err.database) from by
                simp [insert_product, hsku, hchk]]
            exact ih
  | updateStep s' p _ ih =>
    cases s' with
    | mk tabs =>
      cases tabs with
      | none => trivial
      | some t =>
        cases hpid : p.id with
        | none =>
          rw [show repo_update_product (Store.mk (some t)) p =
            (Store.mk (some t), Except.error Err.database) from by
              simp [repo_update_product, hpid]]
          exact ih
        | some pid =>
          by_cases hfindN : (t.products.find? (fun r => r.id == pid)).isNone
          · rw [show repo_update_product (Store.mk (some t)) p =
              (Store.mk (some t), Except.error Err.database) from by
                simp only [repo_update_product, hpid]
                rw [if_pos hfindN]]
            exact ih
          · by_cases hany : (t.products.any
                (fun r => decide (¬ r.id = pid ∧ r.sku = p.sku)))
            · rw [show repo_update_product (Store.mk (some t)) p =
                (Store.mk (some t), Except.error Err.database) from by
                  simp only [repo_update_product, hpid]
                  rw [if_neg hfindN, if_pos hany]]
              exact ih
            · by_cases hchk : checksOk p.unit_price_ht p.vat_rate p.quantity
              · rw [show repo_update_product (Store.mk (some t)) p =
                  (Store.mk (some { t with
                    products := t.products.map
                      (fun r => if r.id == pid then mkRow pid p p.created_at
                        else r) }),
                   Except.ok ()) from by
                    simp only [repo_update_product, hpid]
                    rw [if_neg hfindN, if_neg hany, if_pos hchk]]
                exact tablesInv_update t p pid ih
                  (by rwa [Bool.not_eq_true] at hany) hchk
              · rw [show repo_update_product (Store.mk (some t)) p =
                  (Store.mk (some t), Except.error Err.database) from by
                    simp only [repo_update_product, hpid]
                    rw [if_neg hfindN, if_neg hany, if_neg hchk]]
                exact ih

/-- C8 witness: the store reached by resetting a fresh database and then
inserting one concrete product is reachable and satisfies every schema
constraint. -/
theorem reachable_store_invariant_witness :
    Reachable (insert_product freshStore (seedToProduct seedA)).fst ∧
      StoreInvariant (insert_product freshStore (seedToProduct seedA)).fst :=
  ⟨Reachable.insertStep freshStore (seedToProduct seedA)
      (Reachable.resetStep { tables := none } Reachable.init),
    reachable_store_invariant _
      (Reachable.insertStep freshStore (seedToProduct seedA)
        (Reachable.resetStep { tables := none } Reachable.init))⟩
